import Mathlib

/-!
A shallow embedding of the Synacor challenge virtual machine
(`src/main.rs`) and proofs about it.

Modelling conventions:

* Machine words (`u16` in the source) are embedded as `Nat`; where the
  source's fixed bit width matters (wraparound, array bounds) the bound
  is made explicit in the definitions.
* The Rust method `run_optcode` mutates `self` in place and returns
  `Result<(), SynacorErr>`; the embedding passes the state explicitly and
  returns `Option (Option SynacorErr × Synacor)`:
  - `some (none, s)` models `Ok(())` with the machine left in state `s`;
  - `some (some e, s)` models `Err(e)` returned with the machine left in
    state `s` (exactly the state at the moment of the early return, so
    partial mutation before a failure is observable);
  - `none` models a Rust panic (array index out of bounds, integer
    overflow in debug mode, division by zero): the process dies and no
    machine state survives.
* The stack is a `List Nat` whose head is the top of the stack (the end
  of the source's `Vec<u16>`).
* The standard input handle is embedded as `Option (List Nat)`:
  `none` is a stream whose read fails with an I/O error, `some bytes`
  is a healthy stream holding `bytes`.  Per the contract of
  `std::io::Read::read`, reading from an exhausted healthy stream
  returns `Ok(0)` with the buffer untouched; reading from a stream with
  data available returns `Ok(1)` after storing one byte.
* Standard output is embedded as an explicit `stdout` list of the bytes
  written so far.
-/

/-- Size of the physical word-memory buffer: `memory: [u16; 0x1FFFFF]`. -/
def MEM_SIZE : Nat := 0x1FFFFF

/-- The error enumeration `SynacorErr` from the source.  The payload of
`InputErr(io::Error)` is irrelevant to control flow and is dropped. -/
inductive SynacorErr where
  | Halted
  | BadRegister
  | StackUnderflow
  | BadOptcode
  | InputErr
deriving DecidableEq, Repr

/-- The machine state `struct Synacor`.  `memory` is a total function
standing for the fixed array `[u16; 0x1FFFFF]`; accesses made through a
`u16` index are always in bounds, and the checked accessors below guard
the bound exactly where the Rust indexing would panic. -/
structure Synacor where
  registers : List Nat
  memory : Nat → Nat
  stack : List Nat
  program_counter : Nat
  stdin : Option (List Nat)
  stdout : List Nat

instance : Inhabited Synacor :=
  ⟨⟨List.replicate 8 0, fun _ => 0, [], 0, none, []⟩⟩

/-- `Synacor::new`, parametrised by the input stream handle. -/
def Synacor.new (input : Option (List Nat)) : Synacor where
  registers := List.replicate 8 0
  memory := fun _ => 0
  stack := []
  program_counter := 0
  stdin := input
  stdout := []

/-- `read_word_code`: `self.program_counter += 1;
self.memory[self.program_counter as usize - 1]`.  When the counter is
`65535` the `u16` increment overflows: a panic in debug mode, and in
release mode the wrapped counter makes the index expression underflow
`usize` and the memory access panic.  Either way the machine dies, so
the embedding returns `none` there. -/
def read_word_code (s : Synacor) : Option (Nat × Synacor) :=
  if s.program_counter < 65535 then
    some (s.memory s.program_counter,
          { s with program_counter := s.program_counter + 1 })
  else
    none

/-- `read_word_data`: operand resolution for data reads.  Values below
`32768` are literals; otherwise `register = location % 32768` is checked
with `register > 8` and then used to index `self.registers`, an array of
length 8 — so `register = 8` passes the check and the indexing panics
(`none`). -/
def read_word_data (s : Synacor) (location : Nat) :
    Option (Except SynacorErr Nat) :=
  if location < 32768 then
    some (Except.ok location)
  else
    let register := location % 32768
    if register > 8 then
      some (Except.error SynacorErr.BadRegister)
    else
      match s.registers.get? register with
      | some v => some (Except.ok v)
      | none => none

/-- `write_word_data`: operand resolution for write targets.  Writes
aimed at a literal value are silently discarded; otherwise the same
boundary check as `read_word_data` is applied and
`self.registers[register] = word` panics when `register` is outside the
array. -/
def write_word_data (s : Synacor) (location word : Nat) :
    Option (Except SynacorErr Synacor) :=
  if location < 32768 then
    some (Except.ok s)
  else
    let register := location % 32768
    if register > 8 then
      some (Except.error SynacorErr.BadRegister)
    else if register < s.registers.length then
      some (Except.ok { s with registers := s.registers.set register word })
    else
      none

/-- The word formed from one byte pair in `read_bytes_into_ram`:
`word = byte2; word <<= 8; word |= byte1`.  The `% 256` coercions embed
the `u8` type of the incoming bytes. -/
def wordLE (byte1 byte2 : Nat) : Nat :=
  ((byte2 % 256) <<< 8) ||| (byte1 % 256)

/-- The loop of `read_bytes_into_ram`: the iterator pairs each byte with
its successor, skips odd positions, and stores `wordLE` at `index / 2`.
Equivalently, consecutive byte pairs are stored at word indices
`0, 1, 2, …`; a trailing unpaired byte is dropped.  Writing at an index
outside the memory array panics (`none`). -/
def load_loop (mem : Nat → Nat) (index : Nat) : List Nat → Option (Nat → Nat)
  | [] => some mem
  | [_] => some mem
  | byte1 :: byte2 :: rest =>
    if index < MEM_SIZE then
      load_loop (fun j => if j = index then wordLE byte1 byte2 else mem j)
        (index + 1) rest
    else
      none

/-- `read_bytes_into_ram`. -/
def read_bytes_into_ram (s : Synacor) (bytes : List Nat) : Option Synacor :=
  (load_loop s.memory 0 bytes).map fun m => { s with memory := m }

/-- The result of one `run_optcode` step; see the module comment. -/
abbrev StepM := Option (Option SynacorErr × Synacor)

/-- Sequencing of one instruction-stream read (`read_word_code`). -/
def bindCode (s : Synacor) (k : Nat → Synacor → StepM) : StepM :=
  match read_word_code s with
  | none => none
  | some (w, s1) => k w s1

/-- Sequencing of one operand resolution wrapped in the source's `try!`:
a `BadRegister` failure returns `Err` with the machine in its current
state. -/
def bindData (s : Synacor) (location : Nat) (k : Nat → StepM) : StepM :=
  match read_word_data s location with
  | none => none
  | some (Except.error e) => some (some e, s)
  | some (Except.ok v) => k v

/-- Checked direct read of the raw memory buffer, as in
`self.memory[b as usize]`: panic outside the physical buffer. -/
def memGetE (m : Nat → Nat) (i : Nat) : Option Nat :=
  if i < MEM_SIZE then some (m i) else none

/-- Checked direct write to the raw memory buffer, as in
`self.memory[a as usize] = b`. -/
def memSetE (m : Nat → Nat) (i v : Nat) : Option (Nat → Nat) :=
  if i < MEM_SIZE then some (fun j => if j = i then v else m j) else none

/-- Sequencing of one direct memory read. -/
def bindMem (s : Synacor) (i : Nat) (k : Nat → StepM) : StepM :=
  match memGetE s.memory i with
  | none => none
  | some v => k v

/-- A terminal `write_word_data` call whose result is the instruction's
result, as in the tail position of most opcode arms. -/
def doWrite (s : Synacor) (location word : Nat) : StepM :=
  match write_word_data s location word with
  | none => none
  | some (Except.error e) => some (some e, s)
  | some (Except.ok s1) => some (none, s1)

/-- One step of the fetch-decode-execute loop: `run_optcode`. -/
def run_optcode (s0 : Synacor) : StepM :=
  bindCode s0 fun opc s =>
  if opc = 0 then
    some (some SynacorErr.Halted, s)
  else if opc = 1 then
    bindCode s fun write_reg s =>
    bindCode s fun word_loc s =>
    bindData s word_loc fun word =>
    doWrite s write_reg word
  else if opc = 2 then
    bindCode s fun location s =>
    bindData s location fun word =>
    some (none, { s with stack := word :: s.stack })
  else if opc = 3 then
    match s.stack with
    | word :: rest =>
      let s := { s with stack := rest }
      bindCode s fun location s =>
      doWrite s location word
    | [] => some (some SynacorErr.StackUnderflow, s)
  else if opc = 4 then
    bindCode s fun location_a s =>
    bindCode s fun location_b s =>
    bindCode s fun location_c s =>
    bindData s location_b fun b =>
    bindData s location_c fun c =>
    doWrite s location_a (if b = c then 1 else 0)
  else if opc = 5 then
    bindCode s fun location_a s =>
    bindCode s fun location_b s =>
    bindCode s fun location_c s =>
    bindData s location_b fun b =>
    bindData s location_c fun c =>
    doWrite s location_a (if b > c then 1 else 0)
  else if opc = 6 then
    bindCode s fun location s =>
    bindData s location fun jump =>
    some (none, { s with program_counter := jump })
  else if opc = 7 then
    bindCode s fun test_loc s =>
    bindData s test_loc fun test =>
    bindCode s fun jump_loc s =>
    if test ≠ 0 then
      bindData s jump_loc fun jump =>
      some (none, { s with program_counter := jump })
    else
      some (none, s)
  else if opc = 8 then
    bindCode s fun test_loc s =>
    bindData s test_loc fun test =>
    bindCode s fun jump_loc s =>
    if test = 0 then
      bindData s jump_loc fun jump =>
      some (none, { s with program_counter := jump })
    else
      some (none, s)
  else if opc = 9 then
    bindCode s fun location_a s =>
    bindCode s fun location_b s =>
    bindCode s fun location_c s =>
    bindData s location_b fun b =>
    bindData s location_c fun c =>
    doWrite s location_a (((b + c) % 65536) % 32768)
  else if opc = 10 then
    bindCode s fun location_a s =>
    bindCode s fun location_b s =>
    bindCode s fun location_c s =>
    bindData s location_b fun b =>
    bindData s location_c fun c =>
    doWrite s location_a (((b * c) % 65536) % 32768)
  else if opc = 11 then
    bindCode s fun location_a s =>
    bindCode s fun location_b s =>
    bindCode s fun location_c s =>
    bindData s location_b fun b =>
    bindData s location_c fun c =>
    if c = 0 then
      none
    else
      doWrite s location_a ((b % c) % 32768)
  else if opc = 12 then
    bindCode s fun location_a s =>
    bindCode s fun location_b s =>
    bindCode s fun location_c s =>
    bindData s location_b fun b =>
    bindData s location_c fun c =>
    doWrite s location_a (b &&& c)
  else if opc = 13 then
    bindCode s fun location_a s =>
    bindCode s fun location_b s =>
    bindCode s fun location_c s =>
    bindData s location_b fun b =>
    bindData s location_c fun c =>
    doWrite s location_a (b ||| c)
  else if opc = 14 then
    bindCode s fun location_a s =>
    bindCode s fun location_b s =>
    bindData s location_b fun b =>
    doWrite s location_a (b ^^^ 0x7FFF)
  else if opc = 15 then
    bindCode s fun location_a s =>
    bindCode s fun location_b s =>
    bindData s location_b fun b =>
    bindMem s b fun a =>
    doWrite s location_a a
  else if opc = 16 then
    bindCode s fun location_a s =>
    bindCode s fun location_b s =>
    bindData s location_a fun a =>
    bindData s location_b fun b =>
    match memSetE s.memory a b with
    | none => none
    | some m => some (none, { s with memory := m })
  else if opc = 17 then
    bindCode s fun location_a s =>
    bindData s location_a fun a =>
    some (none, { s with stack := s.program_counter :: s.stack,
                         program_counter := a })
  else if opc = 18 then
    match s.stack with
    | jump :: rest =>
      some (none, { s with stack := rest, program_counter := jump })
    | [] => some (some SynacorErr.StackUnderflow, s)
  else if opc = 19 then
    bindCode s fun location s =>
    bindData s location fun char =>
    some (none, { s with stdout := s.stdout ++ [char % 256] })
  else if opc = 20 then
    bindCode s fun location_a s =>
    match s.stdin with
    | none => some (some SynacorErr.InputErr, s)
    | some [] =>
      doWrite s location_a 0
    | some (byte :: rest) =>
      doWrite { s with stdin := some rest } location_a (byte % 256)
  else if opc = 21 then
    some (none, s)
  else
    some (some SynacorErr.BadOptcode, s)

/-- A machine state assembled for a test: a program image already in
word memory, given register and stack contents, and an input handle. -/
def mkSynacor (prog regs stk : List Nat) (input : Option (List Nat)) :
    Synacor where
  registers := regs
  memory := fun i => prog.getD i 0
  stack := stk
  program_counter := 0
  stdin := input
  stdout := []

/-! ### Extraction and evaluation lemmas for the step combinators -/

lemma bindCode_some {s : Synacor} {k : Nat → Synacor → StepM}
    {r : Option SynacorErr × Synacor} (h : bindCode s k = some r) :
    s.program_counter < 65535 ∧
      k (s.memory s.program_counter)
        { s with program_counter := s.program_counter + 1 } = some r := by
  unfold bindCode read_word_code at h
  by_cases hpc : s.program_counter < 65535
  · rw [if_pos hpc] at h
    exact ⟨hpc, h⟩
  · rw [if_neg hpc] at h
    simp at h

lemma bindCode_eval {s : Synacor} {k : Nat → Synacor → StepM}
    (h : s.program_counter < 65535) :
    bindCode s k = k (s.memory s.program_counter)
      { s with program_counter := s.program_counter + 1 } := by
  unfold bindCode read_word_code
  rw [if_pos h]

lemma bindData_eval_ok {s : Synacor} {loc v : Nat} {k : Nat → StepM}
    (h : read_word_data s loc = some (Except.ok v)) :
    bindData s loc k = k v := by
  unfold bindData
  rw [h]

lemma doWrite_eval {s s1 : Synacor} {loc w : Nat}
    (h : write_word_data s loc w = some (Except.ok s1)) :
    doWrite s loc w = some (none, s1) := by
  unfold doWrite
  rw [h]

lemma read_word_data_literal {s : Synacor} {loc : Nat} (h : loc < 32768) :
    read_word_data s loc = some (Except.ok loc) := by
  unfold read_word_data
  rw [if_pos h]

lemma read_word_data_register {s : Synacor} {loc v : Nat}
    (h1 : ¬ loc < 32768) (h2 : ¬ loc % 32768 > 8)
    (h3 : s.registers.get? (loc % 32768) = some v) :
    read_word_data s loc = some (Except.ok v) := by
  unfold read_word_data
  rw [if_neg h1]
  simp only []
  rw [if_neg h2, h3]

lemma write_word_data_register_eval {s : Synacor} {loc w : Nat}
    (h1 : ¬ loc < 32768) (h2 : ¬ loc % 32768 > 8)
    (h3 : loc % 32768 < s.registers.length) :
    write_word_data s loc w =
      some (Except.ok { s with registers := s.registers.set (loc % 32768) w }) := by
  unfold write_word_data
  rw [if_neg h1]
  simp only []
  rw [if_neg h2, if_pos h3]

lemma bindData_err {s s' : Synacor} {loc : Nat} {k : Nat → StepM}
    {e : SynacorErr} (h : bindData s loc k = some (some e, s')) :
    s' = s ∨ ∃ v, read_word_data s loc = some (Except.ok v) ∧
      k v = some (some e, s') := by
  unfold bindData at h
  cases hr : read_word_data s loc with
  | none => rw [hr] at h; exact absurd h (by simp)
  | some x =>
    cases x with
    | error e2 =>
      rw [hr] at h
      simp only [Option.some.injEq, Prod.mk.injEq] at h
      exact Or.inl h.2.symm
    | ok v =>
      rw [hr] at h
      exact Or.inr ⟨v, rfl, h⟩

lemma bindData_ok {s s' : Synacor} {loc : Nat} {k : Nat → StepM}
    (h : bindData s loc k = some (none, s')) :
    ∃ v, read_word_data s loc = some (Except.ok v) ∧
      k v = some (none, s') := by
  unfold bindData at h
  cases hr : read_word_data s loc with
  | none => rw [hr] at h; exact absurd h (by simp)
  | some x =>
    cases x with
    | error e2 => rw [hr] at h; simp at h
    | ok v => rw [hr] at h; exact ⟨v, rfl, h⟩

lemma bindMem_some {s : Synacor} {i : Nat} {k : Nat → StepM}
    {r : Option SynacorErr × Synacor} (h : bindMem s i k = some r) :
    i < MEM_SIZE ∧ k (s.memory i) = some r := by
  unfold bindMem memGetE at h
  by_cases hi : i < MEM_SIZE
  · rw [if_pos hi] at h
    exact ⟨hi, h⟩
  · rw [if_neg hi] at h
    simp at h

lemma doWrite_err {s s' : Synacor} {loc w : Nat} {e : SynacorErr}
    (h : doWrite s loc w = some (some e, s')) : s' = s := by
  unfold doWrite at h
  cases hw : write_word_data s loc w with
  | none => rw [hw] at h; exact absurd h (by simp)
  | some x =>
    cases x with
    | error e2 =>
      rw [hw] at h
      simp only [Option.some.injEq, Prod.mk.injEq] at h
      exact h.2.symm
    | ok s1 => rw [hw] at h; simp at h

lemma doWrite_ok {s s' : Synacor} {loc w : Nat}
    (h : doWrite s loc w = some (none, s')) :
    write_word_data s loc w = some (Except.ok s') := by
  unfold doWrite at h
  cases hw : write_word_data s loc w with
  | none => rw [hw] at h; exact absurd h (by simp)
  | some x =>
    cases x with
    | error e2 => rw [hw] at h; simp at h
    | ok s1 =>
      rw [hw] at h
      simp only [Option.some.injEq, Prod.mk.injEq] at h
      rw [h.2]

lemma write_word_data_ok {s s' : Synacor} {loc w : Nat}
    (h : write_word_data s loc w = some (Except.ok s')) :
    s' = s ∨ ∃ reg, reg < s.registers.length ∧
      s' = { s with registers := s.registers.set reg w } := by
  unfold write_word_data at h
  by_cases h1 : loc < 32768
  · rw [if_pos h1] at h
    simp only [Option.some.injEq, Except.ok.injEq] at h
    exact Or.inl h.symm
  · rw [if_neg h1] at h
    simp only [] at h
    by_cases h2 : loc % 32768 > 8
    · rw [if_pos h2] at h
      simp at h
    · rw [if_neg h2] at h
      by_cases h3 : loc % 32768 < s.registers.length
      · rw [if_pos h3] at h
        simp only [Option.some.injEq, Except.ok.injEq] at h
        exact Or.inr ⟨loc % 32768, h3, h.symm⟩
      · rw [if_neg h3] at h
        simp at h

lemma read_word_data_registers {s1 s2 : Synacor} (loc : Nat)
    (h : s1.registers = s2.registers) :
    read_word_data s1 loc = read_word_data s2 loc := by
  unfold read_word_data
  rw [h]

lemma read_word_data_lt {s : Synacor} {loc v : Nat}
    (h : read_word_data s loc = some (Except.ok v))
    (hr : ∀ r ∈ s.registers, r < 32768) : v < 32768 := by
  unfold read_word_data at h
  by_cases h1 : loc < 32768
  · rw [if_pos h1] at h
    simp only [Option.some.injEq, Except.ok.injEq] at h
    omega
  · rw [if_neg h1] at h
    simp only [] at h
    by_cases h2 : loc % 32768 > 8
    · rw [if_pos h2] at h
      simp at h
    · rw [if_neg h2] at h
      cases hg : s.registers.get? (loc % 32768) with
      | none => rw [hg] at h; simp at h
      | some w =>
        rw [hg] at h
        simp only [Option.some.injEq, Except.ok.injEq] at h
        exact h ▸ hr w (List.get?_mem hg)

/-! ### Frame safety: error returns leave registers, memory and stack alone -/

/-- All `Err` outcomes of the step computation `t` leave the registers,
memory and stack of the reference state `s1` unchanged. -/
def FrameSafe (s1 : Synacor) (t : StepM) : Prop :=
  ∀ e s', t = some (some e, s') →
    s'.registers = s1.registers ∧ s'.memory = s1.memory ∧ s'.stack = s1.stack

lemma frameSafe_none {s1 : Synacor} : FrameSafe s1 none := by
  intro e s' h
  simp at h

lemma frameSafe_ret {s1 x : Synacor} : FrameSafe s1 (some (none, x)) := by
  intro e s' h
  simp at h

lemma frameSafe_err {s1 sc : Synacor} {e0 : SynacorErr}
    (hreg : sc.registers = s1.registers) (hmem : sc.memory = s1.memory)
    (hstk : sc.stack = s1.stack) : FrameSafe s1 (some (some e0, sc)) := by
  intro e s' h
  simp only [Option.some.injEq, Prod.mk.injEq] at h
  rw [← h.2]
  exact ⟨hreg, hmem, hstk⟩

lemma frameSafe_bindCode {s1 sc : Synacor}
    (hreg : sc.registers = s1.registers) (hmem : sc.memory = s1.memory)
    (hstk : sc.stack = s1.stack) {k : Nat → Synacor → StepM}
    (hk : ∀ w (s2 : Synacor), s2.registers = s1.registers →
      s2.memory = s1.memory → s2.stack = s1.stack → FrameSafe s1 (k w s2)) :
    FrameSafe s1 (bindCode sc k) := by
  intro e s' h
  obtain ⟨_, h⟩ := bindCode_some h
  exact hk (sc.memory sc.program_counter)
    { sc with program_counter := sc.program_counter + 1 }
    hreg hmem hstk e s' h

lemma frameSafe_bindData {s1 sc : Synacor}
    (hreg : sc.registers = s1.registers) (hmem : sc.memory = s1.memory)
    (hstk : sc.stack = s1.stack) {loc : Nat} {k : Nat → StepM}
    (hk : ∀ v, FrameSafe s1 (k v)) : FrameSafe s1 (bindData sc loc k) := by
  intro e s' h
  rcases bindData_err h with h | ⟨v, _, h⟩
  · rw [h]
    exact ⟨hreg, hmem, hstk⟩
  · exact hk v e s' h

lemma frameSafe_bindMem {s1 sc : Synacor} {i : Nat} {k : Nat → StepM}
    (hk : ∀ v, FrameSafe s1 (k v)) : FrameSafe s1 (bindMem sc i k) := by
  intro e s' h
  obtain ⟨_, h⟩ := bindMem_some h
  exact hk _ e s' h

lemma frameSafe_doWrite {s1 sc : Synacor}
    (hreg : sc.registers = s1.registers) (hmem : sc.memory = s1.memory)
    (hstk : sc.stack = s1.stack) {loc w : Nat} :
    FrameSafe s1 (doWrite sc loc w) := by
  intro e s' h
  rw [doWrite_err h]
  exact ⟨hreg, hmem, hstk⟩

/-- Claim C5 (amended): for every instruction other than `in` (opcode 20)
and `pop` (opcode 3), if `run_optcode` returns a `BadRegister`,
`StackUnderflow` or `BadOptcode` failure, the registers, the memory and
the stack are exactly as they were before the instruction started. -/
theorem error_frame_amended (s0 : Synacor) (e : SynacorErr) (s' : Synacor)
    (h : run_optcode s0 = some (some e, s'))
    (_he : e = SynacorErr.BadRegister ∨ e = SynacorErr.StackUnderflow ∨
      e = SynacorErr.BadOptcode)
    (hpop : s0.memory s0.program_counter ≠ 3)
    (_hin : s0.memory s0.program_counter ≠ 20) :
    s'.registers = s0.registers ∧ s'.memory = s0.memory ∧
      s'.stack = s0.stack := by
  unfold run_optcode at h
  obtain ⟨hpc, h⟩ := bindCode_some h
  simp only [] at h
  by_cases h0 : s0.memory s0.program_counter = 0
  · rw [if_pos h0] at h
    exact frameSafe_err (by rfl) (by rfl) (by rfl) e s' h
  rw [if_neg h0] at h
  by_cases h1 : s0.memory s0.program_counter = 1
  · rw [if_pos h1] at h
    exact frameSafe_bindCode (by rfl) (by rfl) (by rfl) (fun _ s2 hr hm hs =>
      frameSafe_bindCode hr hm hs fun _ s3 hr hm hs =>
      frameSafe_bindData hr hm hs fun _ =>
      frameSafe_doWrite hr hm hs) e s' h
  rw [if_neg h1] at h
  by_cases h2 : s0.memory s0.program_counter = 2
  · rw [if_pos h2] at h
    exact frameSafe_bindCode (by rfl) (by rfl) (by rfl) (fun _ s2 hr hm hs =>
      frameSafe_bindData hr hm hs fun _ => frameSafe_ret) e s' h
  rw [if_neg h2] at h
  by_cases h3 : s0.memory s0.program_counter = 3
  · exact absurd h3 hpop
  rw [if_neg h3] at h
  by_cases h4 : s0.memory s0.program_counter = 4
  · rw [if_pos h4] at h
    exact frameSafe_bindCode (by rfl) (by rfl) (by rfl) (fun _ s2 hr hm hs =>
      frameSafe_bindCode hr hm hs fun _ s3 hr hm hs =>
      frameSafe_bindCode hr hm hs fun _ s4 hr hm hs =>
      frameSafe_bindData hr hm hs fun _ =>
      frameSafe_bindData hr hm hs fun _ =>
      frameSafe_doWrite hr hm hs) e s' h
  rw [if_neg h4] at h
  by_cases h5 : s0.memory s0.program_counter = 5
  · rw [if_pos h5] at h
    exact frameSafe_bindCode (by rfl) (by rfl) (by rfl) (fun _ s2 hr hm hs =>
      frameSafe_bindCode hr hm hs fun _ s3 hr hm hs =>
      frameSafe_bindCode hr hm hs fun _ s4 hr hm hs =>
      frameSafe_bindData hr hm hs fun _ =>
      frameSafe_bindData hr hm hs fun _ =>
      frameSafe_doWrite hr hm hs) e s' h
  rw [if_neg h5] at h
  by_cases h6 : s0.memory s0.program_counter = 6
  · rw [if_pos h6] at h
    exact frameSafe_bindCode (by rfl) (by rfl) (by rfl) (fun _ s2 hr hm hs =>
      frameSafe_bindData hr hm hs fun _ => frameSafe_ret) e s' h
  rw [if_neg h6] at h
  by_cases h7 : s0.memory s0.program_counter = 7
  · rw [if_pos h7] at h
    refine frameSafe_bindCode (by rfl) (by rfl) (by rfl) (fun _ s2 hr hm hs =>
      frameSafe_bindData hr hm hs fun test =>
      frameSafe_bindCode hr hm hs fun _ s3 hr3 hm3 hs3 => ?_) e s' h
    by_cases ht : test ≠ 0
    · rw [if_pos ht]
      exact frameSafe_bindData hr3 hm3 hs3 fun _ => frameSafe_ret
    · rw [if_neg ht]
      exact frameSafe_ret
  rw [if_neg h7] at h
  by_cases h8 : s0.memory s0.program_counter = 8
  · rw [if_pos h8] at h
    refine frameSafe_bindCode (by rfl) (by rfl) (by rfl) (fun _ s2 hr hm hs =>
      frameSafe_bindData hr hm hs fun test =>
      frameSafe_bindCode hr hm hs fun _ s3 hr3 hm3 hs3 => ?_) e s' h
    by_cases ht : test = 0
    · rw [if_pos ht]
      exact frameSafe_bindData hr3 hm3 hs3 fun _ => frameSafe_ret
    · rw [if_neg ht]
      exact frameSafe_ret
  rw [if_neg h8] at h
  by_cases h9 : s0.memory s0.program_counter = 9
  · rw [if_pos h9] at h
    exact frameSafe_bindCode (by rfl) (by rfl) (by rfl) (fun _ s2 hr hm hs =>
      frameSafe_bindCode hr hm hs fun _ s3 hr hm hs =>
      frameSafe_bindCode hr hm hs fun _ s4 hr hm hs =>
      frameSafe_bindData hr hm hs fun _ =>
      frameSafe_bindData hr hm hs fun _ =>
      frameSafe_doWrite hr hm hs) e s' h
  rw [if_neg h9] at h
  by_cases h10 : s0.memory s0.program_counter = 10
  · rw [if_pos h10] at h
    exact frameSafe_bindCode (by rfl) (by rfl) (by rfl) (fun _ s2 hr hm hs =>
      frameSafe_bindCode hr hm hs fun _ s3 hr hm hs =>
      frameSafe_bindCode hr hm hs fun _ s4 hr hm hs =>
      frameSafe_bindData hr hm hs fun _ =>
      frameSafe_bindData hr hm hs fun _ =>
      frameSafe_doWrite hr hm hs) e s' h
  rw [if_neg h10] at h
  by_cases h11 : s0.memory s0.program_counter = 11
  · rw [if_pos h11] at h
    refine frameSafe_bindCode (by rfl) (by rfl) (by rfl) (fun _ s2 hr hm hs =>
      frameSafe_bindCode hr hm hs fun _ s3 hr hm hs =>
      frameSafe_bindCode hr hm hs fun _ s4 hr hm hs =>
      frameSafe_bindData hr hm hs fun _ =>
      frameSafe_bindData hr hm hs fun c => ?_) e s' h
    by_cases hc : c = 0
    · rw [if_pos hc]
      exact frameSafe_none
    · rw [if_neg hc]
      exact frameSafe_doWrite hr hm hs
  rw [if_neg h11] at h
  by_cases h12 : s0.memory s0.program_counter = 12
  · rw [if_pos h12] at h
    exact frameSafe_bindCode (by rfl) (by rfl) (by rfl) (fun _ s2 hr hm hs =>
      frameSafe_bindCode hr hm hs fun _ s3 hr hm hs =>
      frameSafe_bindCode hr hm hs fun _ s4 hr hm hs =>
      frameSafe_bindData hr hm hs fun _ =>
      frameSafe_bindData hr hm hs fun _ =>
      frameSafe_doWrite hr hm hs) e s' h
  rw [if_neg h12] at h
  by_cases h13 : s0.memory s0.program_counter = 13
  · rw [if_pos h13] at h
    exact frameSafe_bindCode (by rfl) (by rfl) (by rfl) (fun _ s2 hr hm hs =>
      frameSafe_bindCode hr hm hs fun _ s3 hr hm hs =>
      frameSafe_bindCode hr hm hs fun _ s4 hr hm hs =>
      frameSafe_bindData hr hm hs fun _ =>
      frameSafe_bindData hr hm hs fun _ =>
      frameSafe_doWrite hr hm hs) e s' h
  rw [if_neg h13] at h
  by_cases h14 : s0.memory s0.program_counter = 14
  · rw [if_pos h14] at h
    exact frameSafe_bindCode (by rfl) (by rfl) (by rfl) (fun _ s2 hr hm hs =>
      frameSafe_bindCode hr hm hs fun _ s3 hr hm hs =>
      frameSafe_bindData hr hm hs fun _ =>
      frameSafe_doWrite hr hm hs) e s' h
  rw [if_neg h14] at h
  by_cases h15 : s0.memory s0.program_counter = 15
  · rw [if_pos h15] at h
    exact frameSafe_bindCode (by rfl) (by rfl) (by rfl) (fun _ s2 hr hm hs =>
      frameSafe_bindCode hr hm hs fun _ s3 hr hm hs =>
      frameSafe_bindData hr hm hs fun _ =>
      frameSafe_bindMem fun _ =>
      frameSafe_doWrite hr hm hs) e s' h
  rw [if_neg h15] at h
  by_cases h16 : s0.memory s0.program_counter = 16
  · rw [if_pos h16] at h
    refine frameSafe_bindCode (by rfl) (by rfl) (by rfl) (fun _ s2 hr hm hs =>
      frameSafe_bindCode hr hm hs fun _ s3 hr hm hs =>
      frameSafe_bindData hr hm hs fun a =>
      frameSafe_bindData hr hm hs fun b => ?_) e s' h
    cases hms : memSetE s3.memory a b with
    | none => exact frameSafe_none
    | some m => exact frameSafe_ret
  rw [if_neg h16] at h
  by_cases h17 : s0.memory s0.program_counter = 17
  · rw [if_pos h17] at h
    exact frameSafe_bindCode (by rfl) (by rfl) (by rfl) (fun _ s2 hr hm hs =>
      frameSafe_bindData hr hm hs fun _ => frameSafe_ret) e s' h
  rw [if_neg h17] at h
  by_cases h18 : s0.memory s0.program_counter = 18
  · rw [if_pos h18] at h
    cases hstk : s0.stack with
    | nil =>
      rw [hstk] at h
      simp only [Option.some.injEq, Prod.mk.injEq] at h
      rw [← h.2]
      refine ⟨rfl, rfl, ?_⟩
      simp [hstk]
    | cons j rest =>
      rw [hstk] at h
      simp at h
  rw [if_neg h18] at h
  by_cases h19 : s0.memory s0.program_counter = 19
  · rw [if_pos h19] at h
    exact frameSafe_bindCode (by rfl) (by rfl) (by rfl) (fun _ s2 hr hm hs =>
      frameSafe_bindData hr hm hs fun _ => frameSafe_ret) e s' h
  rw [if_neg h19] at h
  by_cases h20 : s0.memory s0.program_counter = 20
  · rw [if_pos h20] at h
    refine frameSafe_bindCode (by rfl) (by rfl) (by rfl)
      (fun _ s2 hr hm hs => ?_) e s' h
    cases hsi : s2.stdin with
    | none => exact frameSafe_err hr hm hs
    | some l =>
      cases l with
      | nil => exact frameSafe_doWrite hr hm hs
      | cons b rest =>
        refine frameSafe_doWrite ?_ ?_ ?_
        · exact hr
        · exact hm
        · exact hs
  rw [if_neg h20] at h
  by_cases h21 : s0.memory s0.program_counter = 21
  · rw [if_pos h21] at h
    exact frameSafe_ret e s' h
  rw [if_neg h21] at h
  exact frameSafe_err (by rfl) (by rfl) (by rfl) e s' h

theorem error_frame_amended_witness :
    ({ mkSynacor [1, 32777, 5] (List.replicate 8 0) [4] none with
        program_counter := 3 } : Synacor).registers =
        (mkSynacor [1, 32777, 5] (List.replicate 8 0) [4] none).registers ∧
      ({ mkSynacor [1, 32777, 5] (List.replicate 8 0) [4] none with
          program_counter := 3 } : Synacor).memory =
        (mkSynacor [1, 32777, 5] (List.replicate 8 0) [4] none).memory ∧
      ({ mkSynacor [1, 32777, 5] (List.replicate 8 0) [4] none with
          program_counter := 3 } : Synacor).stack =
        (mkSynacor [1, 32777, 5] (List.replicate 8 0) [4] none).stack :=
  error_frame_amended (mkSynacor [1, 32777, 5] (List.replicate 8 0) [4] none)
    SynacorErr.BadRegister
    { mkSynacor [1, 32777, 5] (List.replicate 8 0) [4] none with
        program_counter := 3 }
    (by rfl) (Or.inl rfl) (by decide) (by decide)

/-- Claim C5 (counterexample to the claim as stated): `pop` with an
invalid-register destination removes the top stack element before the
write fails with `BadRegister`, so the stack is not left unchanged. -/
theorem pop_partial_mutation_counterexample :
    (run_optcode (mkSynacor [3, 32777] (List.replicate 8 0) [5] none)).map
        (fun r => (r.1, r.2.stack)) =
      some (some SynacorErr.BadRegister, []) ∧
    ([] : List Nat) ≠ [5] := by
  exact ⟨by decide, by decide⟩

/-- Claim C7: a write through `write_word_data` whose raw target value is
below 32768 succeeds and returns the machine state unchanged — the write
is discarded, registers, memory, stack and program counter all keep
their values. -/
theorem literal_write_noop (s : Synacor) (location word : Nat)
    (h : location < 32768) :
    write_word_data s location word = some (Except.ok s) := by
  unfold write_word_data
  rw [if_pos h]

theorem literal_write_noop_witness :
    (5 : Nat) < 32768 ∧
      write_word_data (Synacor.new none) 5 12345 =
        some (Except.ok (Synacor.new none)) :=
  ⟨by decide, literal_write_noop (Synacor.new none) 5 12345 (by decide)⟩

/-- Claim C1 (evaluation at the failing boundary): operand code 32776
maps to register index 8, which passes the source's `register > 8` check
and then indexes the 8-element register array out of bounds — a panic
(`none`), not `BadRegister`, for both the data-read and the write-target
resolution.  Codes 32777 and 65535 do fail with `BadRegister`, and codes
32768..32775 resolve to registers 0..7 (here register 2 holds 33). -/
theorem resolver_boundary_bug :
    read_word_data (Synacor.new none) 32776 = none ∧
      write_word_data (Synacor.new none) 32776 5 = none ∧
      read_word_data (Synacor.new none) 32777 =
        some (Except.error SynacorErr.BadRegister) ∧
      read_word_data (Synacor.new none) 65535 =
        some (Except.error SynacorErr.BadRegister) ∧
      write_word_data (Synacor.new none) 65535 5 =
        some (Except.error SynacorErr.BadRegister) ∧
      read_word_data (mkSynacor [] [0, 0, 33, 0, 0, 0, 0, 0] [] none) 32770 =
        some (Except.ok 33) ∧
      read_word_data (mkSynacor [] [0, 0, 33, 0, 0, 0, 0, 0] [] none) 32775 =
        some (Except.ok 0) := by
  refine ⟨rfl, rfl, rfl, rfl, rfl, rfl, rfl⟩

/-- Claim C2 (evaluation at the failing input): an `in` (opcode 20)
executed against an input stream at end-of-data does not stop with
`InputErr`; the `read` call reports zero bytes read, the untouched
buffer byte 0 is written over the destination register (here register 0,
previously 7), and the step completes successfully. -/
theorem in_eof_writes_zero :
    (run_optcode (mkSynacor [20, 32768] [7, 7, 7, 7, 7, 7, 7, 7] []
        (some []))).map
        (fun r => (r.1, r.2.registers, r.2.stdin, r.2.program_counter)) =
      some (none, [0, 7, 7, 7, 7, 7, 7, 7], some [], 2) := by
  decide

/-- Claim C4 (counterexample to the claim as stated): starting from a
machine loaded by `read_bytes_into_ram` from a 10-byte image whose last
word is 65535, a single `rmem` (opcode 15) stores the raw memory word
65535 — a value outside 0..32767 — into register 0 through
`write_word_data`. -/
theorem write_path_range_counterexample :
    ((read_bytes_into_ram (Synacor.new none)
          [15, 0, 0, 128, 4, 0, 0, 0, 255, 255]).bind run_optcode).map
        (fun r => (r.1, r.2.registers.get? 0)) =
      some (none, some 65535) ∧
    ¬ (65535 : Nat) ≤ 32767 := by
  exact ⟨by decide, by decide⟩

/-! ### Shapes of the result-producing opcode arms -/

lemma doWrite_ok_get {sc s' : Synacor} {loc w : Nat}
    (h : doWrite sc loc w = some (none, s')) :
    ∀ i v, s'.registers.get? i = some v →
      sc.registers.get? i = some v ∨ v = w := by
  intro i v hv
  rcases write_word_data_ok (doWrite_ok h) with h1 | ⟨reg, hreg, h1⟩
  · rw [h1] at hv
    exact Or.inl hv
  · rw [h1] at hv
    simp only [List.get?_eq_getElem?] at hv ⊢
    rw [List.getElem?_set] at hv
    by_cases hri : reg = i
    · rw [if_pos hri, if_pos (hri ▸ hreg)] at hv
      simp only [Option.some.injEq] at hv
      exact Or.inr hv.symm
    · rw [if_neg hri] at hv
      exact Or.inl hv

lemma doWrite_ok_mem {sc s' : Synacor} {loc w : Nat}
    (h : doWrite sc loc w = some (none, s')) :
    ∀ v ∈ s'.registers, v ∈ sc.registers ∨ v = w := by
  intro v hv
  rcases write_word_data_ok (doWrite_ok h) with h1 | ⟨reg, hreg, h1⟩
  · rw [h1] at hv
    exact Or.inl hv
  · rw [h1] at hv
    exact List.mem_or_eq_of_mem_set hv

lemma binop_shape {s1 s' : Synacor} {g : Nat → Nat → Nat}
    (h : (bindCode s1 fun location_a s =>
        bindCode s fun location_b s =>
        bindCode s fun location_c s =>
        bindData s location_b fun b =>
        bindData s location_c fun c =>
        doWrite s location_a (g b c)) = some (none, s')) :
    ∃ (la b c : Nat) (sc : Synacor), sc.registers = s1.registers ∧
      (∃ lb, read_word_data sc lb = some (Except.ok b)) ∧
      (∃ lc, read_word_data sc lc = some (Except.ok c)) ∧
      doWrite sc la (g b c) = some (none, s') := by
  obtain ⟨_, h⟩ := bindCode_some h
  obtain ⟨_, h⟩ := bindCode_some h
  obtain ⟨_, h⟩ := bindCode_some h
  obtain ⟨b, hb, h⟩ := bindData_ok h
  obtain ⟨c, hc, h⟩ := bindData_ok h
  exact ⟨_, b, c, _, by rfl, ⟨_, hb⟩, ⟨_, hc⟩, h⟩

lemma mod_shape {s1 s' : Synacor}
    (h : (bindCode s1 fun location_a s =>
        bindCode s fun location_b s =>
        bindCode s fun location_c s =>
        bindData s location_b fun b =>
        bindData s location_c fun c =>
        if c = 0 then none else doWrite s location_a (b % c % 32768)) =
      some (none, s')) :
    ∃ (la b c : Nat) (sc : Synacor), sc.registers = s1.registers ∧
      doWrite sc la (b % c % 32768) = some (none, s') := by
  obtain ⟨_, h⟩ := bindCode_some h
  obtain ⟨_, h⟩ := bindCode_some h
  obtain ⟨_, h⟩ := bindCode_some h
  obtain ⟨b, hb, h⟩ := bindData_ok h
  obtain ⟨c, hc, h⟩ := bindData_ok h
  by_cases hc0 : c = 0
  · rw [if_pos hc0] at h
    exact absurd h (by simp)
  · rw [if_neg hc0] at h
    exact ⟨_, b, c, _, by rfl, h⟩

lemma unop_shape {s1 s' : Synacor} {g : Nat → Nat}
    (h : (bindCode s1 fun location_a s =>
        bindCode s fun location_b s =>
        bindData s location_b fun b =>
        doWrite s location_a (g b)) = some (none, s')) :
    ∃ (la b : Nat) (sc : Synacor), sc.registers = s1.registers ∧
      (∃ lb, read_word_data sc lb = some (Except.ok b)) ∧
      doWrite sc la (g b) = some (none, s') := by
  obtain ⟨_, h⟩ := bindCode_some h
  obtain ⟨_, h⟩ := bindCode_some h
  obtain ⟨b, hb, h⟩ := bindData_ok h
  exact ⟨_, b, _, by rfl, ⟨_, hb⟩, h⟩

lemma rmem_shape {s1 s' : Synacor}
    (h : (bindCode s1 fun location_a s =>
        bindCode s fun location_b s =>
        bindData s location_b fun b =>
        bindMem s b fun a =>
        doWrite s location_a a) = some (none, s')) :
    ∃ (la b : Nat) (sc : Synacor), sc.registers = s1.registers ∧
      doWrite sc la (s1.memory b) = some (none, s') := by
  obtain ⟨_, h⟩ := bindCode_some h
  obtain ⟨_, h⟩ := bindCode_some h
  obtain ⟨b, hb, h⟩ := bindData_ok h
  obtain ⟨_, h⟩ := bindMem_some h
  exact ⟨_, b, _, by rfl, h⟩

/-- Claim C4 (amended): words stored through `write_word_data` by `eq`,
`gt`, `add`, `mult` and `mod` always lie in 0..32767; `and`, `or` and
`not` store words in 0..32767 whenever every register holds a value in
0..32767; `rmem` stores the fetched memory word unreduced, so its stored
word is only constrained to be some raw memory word. -/
theorem write_path_range_amended :
    (∀ (s s' : Synacor), run_optcode s = some (none, s') →
      (s.memory s.program_counter = 4 ∨ s.memory s.program_counter = 5 ∨
        s.memory s.program_counter = 9 ∨ s.memory s.program_counter = 10 ∨
        s.memory s.program_counter = 11) →
      ∀ i v, s'.registers.get? i = some v →
        s.registers.get? i = some v ∨ v < 32768) ∧
    (∀ (s s' : Synacor), run_optcode s = some (none, s') →
      (s.memory s.program_counter = 12 ∨ s.memory s.program_counter = 13 ∨
        s.memory s.program_counter = 14) →
      (∀ r ∈ s.registers, r < 32768) →
      ∀ v ∈ s'.registers, v < 32768) ∧
    (∀ (s s' : Synacor), run_optcode s = some (none, s') →
      s.memory s.program_counter = 15 →
      ∀ i v, s'.registers.get? i = some v →
        s.registers.get? i = some v ∨ ∃ addr, v = s.memory addr) := by
  refine ⟨?_, ?_, ?_⟩
  · intro s s' h hop i v hv
    unfold run_optcode at h
    obtain ⟨hpc, h⟩ := bindCode_some h
    rcases hop with hop | hop | hop | hop | hop
    · rw [hop] at h
      norm_num at h
      obtain ⟨la, b, c, sc, hreg, _, _, hw⟩ := binop_shape h
      rcases doWrite_ok_get hw i v hv with hx | hx
      · exact Or.inl (hreg ▸ hx)
      · subst hx
        right
        split <;> norm_num
    · rw [hop] at h
      norm_num at h
      obtain ⟨la, b, c, sc, hreg, _, _, hw⟩ := binop_shape h
      rcases doWrite_ok_get hw i v hv with hx | hx
      · exact Or.inl (hreg ▸ hx)
      · subst hx
        right
        split <;> norm_num
    · rw [hop] at h
      norm_num at h
      obtain ⟨la, b, c, sc, hreg, _, _, hw⟩ := binop_shape h
      rcases doWrite_ok_get hw i v hv with hx | hx
      · exact Or.inl (hreg ▸ hx)
      · subst hx
        exact Or.inr (Nat.mod_lt _ (by norm_num))
    · rw [hop] at h
      norm_num at h
      obtain ⟨la, b, c, sc, hreg, _, _, hw⟩ := binop_shape h
      rcases doWrite_ok_get hw i v hv with hx | hx
      · exact Or.inl (hreg ▸ hx)
      · subst hx
        exact Or.inr (Nat.mod_lt _ (by norm_num))
    · rw [hop] at h
      norm_num at h
      obtain ⟨la, b, c, sc, hreg, hw⟩ := mod_shape h
      rcases doWrite_ok_get hw i v hv with hx | hx
      · exact Or.inl (hreg ▸ hx)
      · subst hx
        exact Or.inr (Nat.mod_lt _ (by norm_num))
  · intro s s' h hop hr v hv
    unfold run_optcode at h
    obtain ⟨hpc, h⟩ := bindCode_some h
    have h15 : (32768 : Nat) = 2 ^ 15 := by norm_num
    rcases hop with hop | hop | hop
    · rw [hop] at h
      norm_num at h
      obtain ⟨la, b, c, sc, hreg, ⟨lb, hb⟩, ⟨lc, hc⟩, hw⟩ := binop_shape h
      have hrc : ∀ r ∈ sc.registers, r < 32768 := by
        rw [hreg]
        exact hr
      have hcc := read_word_data_lt hc hrc
      rcases doWrite_ok_mem hw v hv with hx | hx
      · exact hr v (hreg ▸ hx)
      · subst hx
        rw [h15] at hcc ⊢
        exact Nat.and_lt_two_pow b hcc
    · rw [hop] at h
      norm_num at h
      obtain ⟨la, b, c, sc, hreg, ⟨lb, hb⟩, ⟨lc, hc⟩, hw⟩ := binop_shape h
      have hrc : ∀ r ∈ sc.registers, r < 32768 := by
        rw [hreg]
        exact hr
      have hbb := read_word_data_lt hb hrc
      have hcc := read_word_data_lt hc hrc
      rcases doWrite_ok_mem hw v hv with hx | hx
      · exact hr v (hreg ▸ hx)
      · subst hx
        rw [h15] at hbb hcc ⊢
        exact Nat.or_lt_two_pow hbb hcc
    · rw [hop] at h
      norm_num at h
      obtain ⟨la, b, sc, hreg, ⟨lb, hb⟩, hw⟩ := unop_shape h
      have hrc : ∀ r ∈ sc.registers, r < 32768 := by
        rw [hreg]
        exact hr
      have hbb := read_word_data_lt hb hrc
      rcases doWrite_ok_mem hw v hv with hx | hx
      · exact hr v (hreg ▸ hx)
      · subst hx
        rw [h15] at hbb ⊢
        exact Nat.xor_lt_two_pow hbb (by norm_num)
  · intro s s' h hop i v hv
    unfold run_optcode at h
    obtain ⟨hpc, h⟩ := bindCode_some h
    rw [hop] at h
    norm_num at h
    obtain ⟨la, b, sc, hreg, hw⟩ := rmem_shape h
    rcases doWrite_ok_get hw i v hv with hx | hx
    · exact Or.inl (hreg ▸ hx)
    · exact Or.inr ⟨b, hx⟩

theorem write_path_range_amended_witness :
    (mkSynacor [9, 32768, 32769, 32770] [0, 30000, 30000, 0, 0, 0, 0, 0]
        [] none).registers.get? 0 = some 27232 ∨ (27232 : Nat) < 32768 :=
  write_path_range_amended.1
    (mkSynacor [9, 32768, 32769, 32770] [0, 30000, 30000, 0, 0, 0, 0, 0]
      [] none)
    { mkSynacor [9, 32768, 32769, 32770] [0, 30000, 30000, 0, 0, 0, 0, 0]
        [] none with
      registers := [27232, 30000, 30000, 0, 0, 0, 0, 0],
      program_counter := 4 }
    (by rfl) (Or.inr (Or.inr (Or.inl (by rfl)))) 0 27232 (by rfl)

/-! ### Forward evaluation through the instruction stream -/

/-- The state after `n` instruction-stream reads: only the program
counter has advanced. -/
abbrev bump (s : Synacor) (n : Nat) : Synacor :=
  { s with program_counter := s.program_counter + n }

lemma bindCode_eval_at {s : Synacor} (n : Nat) {k : Nat → Synacor → StepM}
    (h : s.program_counter + n < 65535) :
    bindCode (bump s n) k =
      k (s.memory (s.program_counter + n)) (bump s (n + 1)) := by
  unfold bindCode read_word_code
  rw [if_pos (show (bump s n).program_counter < 65535 from h)]
  rfl

lemma bindData_eval_at {s : Synacor} (n : Nat) {loc v : Nat}
    {k : Nat → StepM}
    (h : read_word_data s loc = some (Except.ok v)) :
    bindData (bump s n) loc k = k v := by
  unfold bindData
  rw [read_word_data_registers loc
    (show (bump s n).registers = s.registers from rfl), h]

lemma doWrite_eval_at {s : Synacor} (n : Nat) {loc w : Nat}
    (h1 : ¬ loc < 32768) (h2 : ¬ loc % 32768 > 8)
    (h3 : loc % 32768 < s.registers.length) :
    doWrite (bump s n) loc w =
      some (none, { s with
        registers := s.registers.set (loc % 32768) w,
        program_counter := s.program_counter + n }) := by
  have hb3 : loc % 32768 < (bump s n).registers.length := h3
  rw [doWrite_eval (write_word_data_register_eval h1 h2 hb3)]

/-- Executing `add` (opcode 9) with a register write target: the stored
word is the wrapping 16-bit sum reduced modulo 32768. -/
lemma add_step (s : Synacor) {b c : Nat}
    (hpc : s.program_counter + 3 < 65535)
    (h9 : s.memory s.program_counter = 9)
    (hb : read_word_data s (s.memory (s.program_counter + 2)) =
      some (Except.ok b))
    (hc : read_word_data s (s.memory (s.program_counter + 3)) =
      some (Except.ok c))
    (h1 : ¬ s.memory (s.program_counter + 1) < 32768)
    (h2 : ¬ s.memory (s.program_counter + 1) % 32768 > 8)
    (h3 : s.memory (s.program_counter + 1) % 32768 < s.registers.length) :
    run_optcode s = some (none, { s with
      registers := s.registers.set (s.memory (s.program_counter + 1) % 32768)
        ((b + c) % 65536 % 32768),
      program_counter := s.program_counter + 4 }) := by
  unfold run_optcode
  rw [bindCode_eval (show s.program_counter < 65535 by omega), h9]
  simp only []
  norm_num
  rw [bindCode_eval_at 1 (by omega)]
  rw [bindCode_eval_at 2 (by omega)]
  rw [bindCode_eval_at 3 (by omega)]
  rw [bindData_eval_at 4 hb]
  rw [bindData_eval_at 4 hc]
  rw [doWrite_eval_at 4 h1 h2 h3]

/-- Executing `mult` (opcode 10) with a register write target: the
stored word is the wrapping 16-bit product reduced modulo 32768. -/
lemma mult_step (s : Synacor) {b c : Nat}
    (hpc : s.program_counter + 3 < 65535)
    (h10 : s.memory s.program_counter = 10)
    (hb : read_word_data s (s.memory (s.program_counter + 2)) =
      some (Except.ok b))
    (hc : read_word_data s (s.memory (s.program_counter + 3)) =
      some (Except.ok c))
    (h1 : ¬ s.memory (s.program_counter + 1) < 32768)
    (h2 : ¬ s.memory (s.program_counter + 1) % 32768 > 8)
    (h3 : s.memory (s.program_counter + 1) % 32768 < s.registers.length) :
    run_optcode s = some (none, { s with
      registers := s.registers.set (s.memory (s.program_counter + 1) % 32768)
        (b * c % 65536 % 32768),
      program_counter := s.program_counter + 4 }) := by
  unfold run_optcode
  rw [bindCode_eval (show s.program_counter < 65535 by omega), h10]
  simp only []
  norm_num
  rw [bindCode_eval_at 1 (by omega)]
  rw [bindCode_eval_at 2 (by omega)]
  rw [bindCode_eval_at 3 (by omega)]
  rw [bindData_eval_at 4 hb]
  rw [bindData_eval_at 4 hc]
  rw [doWrite_eval_at 4 h1 h2 h3]

/-- Claim C3: for all 16-bit resolved inputs `b` and `c`, `add` (9)
stores exactly `(b + c) % 32768` and `mult` (10) stores exactly
`(b * c) % 32768` into the destination register; the wrapping 16-bit
operation performed first agrees with the plain modulo-32768 reduction,
and the stored result is always below 32768. -/
theorem add_mult_wraparound :
    (∀ (s : Synacor) (b c : Nat), b < 65536 → c < 65536 →
      s.program_counter + 3 < 65535 →
      s.memory s.program_counter = 9 →
      read_word_data s (s.memory (s.program_counter + 2)) =
        some (Except.ok b) →
      read_word_data s (s.memory (s.program_counter + 3)) =
        some (Except.ok c) →
      ¬ s.memory (s.program_counter + 1) < 32768 →
      ¬ s.memory (s.program_counter + 1) % 32768 > 8 →
      s.memory (s.program_counter + 1) % 32768 < s.registers.length →
      run_optcode s = some (none, { s with
        registers := s.registers.set
          (s.memory (s.program_counter + 1) % 32768) ((b + c) % 32768),
        program_counter := s.program_counter + 4 }) ∧
      (b + c) % 65536 % 32768 = (b + c) % 32768 ∧
      (b + c) % 32768 < 32768) ∧
    (∀ (s : Synacor) (b c : Nat), b < 65536 → c < 65536 →
      s.program_counter + 3 < 65535 →
      s.memory s.program_counter = 10 →
      read_word_data s (s.memory (s.program_counter + 2)) =
        some (Except.ok b) →
      read_word_data s (s.memory (s.program_counter + 3)) =
        some (Except.ok c) →
      ¬ s.memory (s.program_counter + 1) < 32768 →
      ¬ s.memory (s.program_counter + 1) % 32768 > 8 →
      s.memory (s.program_counter + 1) % 32768 < s.registers.length →
      run_optcode s = some (none, { s with
        registers := s.registers.set
          (s.memory (s.program_counter + 1) % 32768) (b * c % 32768),
        program_counter := s.program_counter + 4 }) ∧
      b * c % 65536 % 32768 = b * c % 32768 ∧
      b * c % 32768 < 32768) := by
  constructor
  · intro s b c _ _ hpc h9 hb hc h1 h2 h3
    refine ⟨?_, Nat.mod_mod_of_dvd _ (by norm_num),
      Nat.mod_lt _ (by norm_num)⟩
    rw [add_step s hpc h9 hb hc h1 h2 h3]
    rw [Nat.mod_mod_of_dvd _ (by norm_num)]
  · intro s b c _ _ hpc h10 hb hc h1 h2 h3
    refine ⟨?_, Nat.mod_mod_of_dvd _ (by norm_num),
      Nat.mod_lt _ (by norm_num)⟩
    rw [mult_step s hpc h10 hb hc h1 h2 h3]
    rw [Nat.mod_mod_of_dvd _ (by norm_num)]

theorem add_mult_wraparound_witness :
    run_optcode (mkSynacor [9, 32768, 32769, 32770]
        [0, 32767, 32767, 0, 0, 0, 0, 0] [] none) =
      some (none, { mkSynacor [9, 32768, 32769, 32770]
          [0, 32767, 32767, 0, 0, 0, 0, 0] [] none with
        registers := (mkSynacor [9, 32768, 32769, 32770]
            [0, 32767, 32767, 0, 0, 0, 0, 0] [] none).registers.set
          ((mkSynacor [9, 32768, 32769, 32770]
              [0, 32767, 32767, 0, 0, 0, 0, 0] [] none).memory
            ((mkSynacor [9, 32768, 32769, 32770]
                [0, 32767, 32767, 0, 0, 0, 0, 0] [] none).program_counter +
              1) % 32768) ((32767 + 32767) % 32768),
        program_counter := (mkSynacor [9, 32768, 32769, 32770]
            [0, 32767, 32767, 0, 0, 0, 0, 0] [] none).program_counter + 4 }) ∧
    (32767 + 32767) % 65536 % 32768 = (32767 + 32767) % 32768 ∧
    (32767 + 32767) % 32768 < 32768 :=
  add_mult_wraparound.1
    (mkSynacor [9, 32768, 32769, 32770] [0, 32767, 32767, 0, 0, 0, 0, 0]
      [] none)
    32767 32767 (by decide) (by decide) (by decide) (by rfl) (by rfl)
    (by rfl) (by decide) (by decide) (by decide)

/-- Claim C8: `call` (17) at address `p` pushes `p + 2` — the address
of the instruction immediately after the `call` — and jumps to the
resolved operand; `ret` (18) with a value `v` on top of the stack pops
it and sets the program counter to `v`.  Together: whenever the callee
reaches a `ret` with the call frame back on top of the stack, control
returns to `p + 2`, at any nesting depth. -/
theorem call_ret_round_trip :
    (∀ (s : Synacor) (a : Nat),
      s.program_counter + 1 < 65535 →
      s.memory s.program_counter = 17 →
      read_word_data s (s.memory (s.program_counter + 1)) =
        some (Except.ok a) →
      run_optcode s = some (none, { s with
        stack := (s.program_counter + 2) :: s.stack,
        program_counter := a })) ∧
    (∀ (s : Synacor) (v : Nat) (rest : List Nat),
      s.program_counter < 65535 →
      s.memory s.program_counter = 18 →
      s.stack = v :: rest →
      run_optcode s = some (none, { s with
        stack := rest, program_counter := v })) := by
  constructor
  · intro s a hpc h17 ha
    unfold run_optcode
    rw [bindCode_eval (show s.program_counter < 65535 by omega), h17]
    simp only []
    norm_num
    rw [bindCode_eval_at 1 (by omega)]
    rw [bindData_eval_at 2 ha]
  · intro s v rest hpc h18 hstk
    unfold run_optcode
    rw [bindCode_eval hpc, h18]
    simp only []
    norm_num
    rw [hstk]

theorem call_ret_round_trip_witness :
    run_optcode (mkSynacor [17, 5] (List.replicate 8 0) [9] none) =
      some (none, { mkSynacor [17, 5] (List.replicate 8 0) [9] none with
        stack := ((mkSynacor [17, 5] (List.replicate 8 0) [9]
            none).program_counter + 2) ::
          (mkSynacor [17, 5] (List.replicate 8 0) [9] none).stack,
        program_counter := 5 }) ∧
    run_optcode (mkSynacor [18] (List.replicate 8 0) [2, 9] none) =
      some (none, { mkSynacor [18] (List.replicate 8 0) [2, 9] none with
        stack := [9], program_counter := 2 }) :=
  ⟨call_ret_round_trip.1 (mkSynacor [17, 5] (List.replicate 8 0) [9] none)
      5 (by decide) (by rfl) (by rfl),
    call_ret_round_trip.2 (mkSynacor [18] (List.replicate 8 0) [2, 9] none)
      2 [9] (by decide) (by rfl) (by rfl)⟩

/-- Claim C10: when the branch is not taken — `jt` (7) with resolved
test value 0, or `jf` (8) with a nonzero resolved test value — the
jump-target word is consumed from the instruction stream (the program
counter ends at the instruction start plus 3) but is never passed
through operand resolution, so execution succeeds for every value in
that operand position, including invalid operand codes. -/
theorem branch_not_taken_skips_resolution :
    (∀ s : Synacor,
      s.program_counter + 2 < 65535 →
      s.memory s.program_counter = 7 →
      read_word_data s (s.memory (s.program_counter + 1)) =
        some (Except.ok 0) →
      run_optcode s = some (none,
        { s with program_counter := s.program_counter + 3 })) ∧
    (∀ (s : Synacor) (v : Nat),
      s.program_counter + 2 < 65535 →
      s.memory s.program_counter = 8 →
      read_word_data s (s.memory (s.program_counter + 1)) =
        some (Except.ok v) →
      v ≠ 0 →
      run_optcode s = some (none,
        { s with program_counter := s.program_counter + 3 })) := by
  constructor
  · intro s hpc h7 ht
    unfold run_optcode
    rw [bindCode_eval (show s.program_counter < 65535 by omega), h7]
    simp only []
    norm_num
    rw [bindCode_eval_at 1 (by omega)]
    rw [bindData_eval_at 2 ht]
    rw [bindCode_eval_at 2 (by omega)]
    norm_num
  · intro s v hpc h8 ht hv
    unfold run_optcode
    rw [bindCode_eval (show s.program_counter < 65535 by omega), h8]
    simp only []
    norm_num
    rw [bindCode_eval_at 1 (by omega)]
    rw [bindData_eval_at 2 ht]
    rw [bindCode_eval_at 2 (by omega)]
    rw [if_neg hv]

theorem branch_not_taken_witness :
    run_optcode (mkSynacor [7, 0, 32776] (List.replicate 8 0) [] none) =
      some (none, { mkSynacor [7, 0, 32776] (List.replicate 8 0) [] none
        with program_counter := (mkSynacor [7, 0, 32776]
          (List.replicate 8 0) [] none).program_counter + 3 }) ∧
    run_optcode (mkSynacor [8, 32769, 32776] [0, 5, 0, 0, 0, 0, 0, 0]
        [] none) =
      some (none, { mkSynacor [8, 32769, 32776] [0, 5, 0, 0, 0, 0, 0, 0]
        [] none with program_counter := (mkSynacor [8, 32769, 32776]
          [0, 5, 0, 0, 0, 0, 0, 0] [] none).program_counter + 3 }) :=
  ⟨branch_not_taken_skips_resolution.1
      (mkSynacor [7, 0, 32776] (List.replicate 8 0) [] none)
      (by decide) (by rfl) (by rfl),
    branch_not_taken_skips_resolution.2
      (mkSynacor [8, 32769, 32776] [0, 5, 0, 0, 0, 0, 0, 0] [] none)
      5 (by decide) (by rfl) (by rfl) (by decide)⟩

lemma bindMem_eval_at {s : Synacor} (n : Nat) {i : Nat} {k : Nat → StepM}
    (h : i < MEM_SIZE) :
    bindMem (bump s n) i k = k (s.memory i) := by
  unfold bindMem memGetE
  rw [if_pos h]

/-- Executing `wmem` (opcode 16): the resolved value `b` is written to
the raw memory index `a`, with no register remapping of `a`. -/
lemma wmem_step (s : Synacor) (a b : Nat)
    (hpc : s.program_counter + 2 < 65535)
    (h16 : s.memory s.program_counter = 16)
    (ha : read_word_data s (s.memory (s.program_counter + 1)) =
      some (Except.ok a))
    (hb : read_word_data s (s.memory (s.program_counter + 2)) =
      some (Except.ok b))
    (hmem : a < MEM_SIZE) :
    run_optcode s = some (none, { s with
      memory := fun j => if j = a then b else s.memory j,
      program_counter := s.program_counter + 3 }) := by
  unfold run_optcode
  rw [bindCode_eval (show s.program_counter < 65535 by omega), h16]
  simp only []
  norm_num
  rw [bindCode_eval_at 1 (by omega)]
  rw [bindCode_eval_at 2 (by omega)]
  rw [bindData_eval_at 3 ha]
  rw [bindData_eval_at 3 hb]
  have hms : memSetE s.memory a b =
      some (fun j => if j = a then b else s.memory j) := by
    unfold memSetE
    rw [if_pos hmem]
  rw [hms]

/-- Executing `rmem` (opcode 15) with a register write target: the word
at the raw memory index `b` is fetched, with no register remapping of
`b`, and stored unreduced. -/
lemma rmem_step (s : Synacor) (b : Nat)
    (hpc : s.program_counter + 2 < 65535)
    (h15 : s.memory s.program_counter = 15)
    (hb : read_word_data s (s.memory (s.program_counter + 2)) =
      some (Except.ok b))
    (hmem : b < MEM_SIZE)
    (h1 : ¬ s.memory (s.program_counter + 1) < 32768)
    (h2 : ¬ s.memory (s.program_counter + 1) % 32768 > 8)
    (h3 : s.memory (s.program_counter + 1) % 32768 < s.registers.length) :
    run_optcode s = some (none, { s with
      registers := s.registers.set (s.memory (s.program_counter + 1) % 32768)
        (s.memory b),
      program_counter := s.program_counter + 3 }) := by
  unfold run_optcode
  rw [bindCode_eval (show s.program_counter < 65535 by omega), h15]
  simp only []
  norm_num
  rw [bindCode_eval_at 1 (by omega)]
  rw [bindCode_eval_at 2 (by omega)]
  rw [bindData_eval_at 3 hb]
  rw [bindMem_eval_at 3 hmem]
  rw [doWrite_eval_at 3 h1 h2 h3]

/-- Claim C9: every 16-bit value used as a direct memory address by
`rmem` (15) or `wmem` (16) is within the physical buffer bound
`MEM_SIZE`, and the access reads or writes the raw buffer at exactly
that index — succeeding with no failure and no register remapping, even
for addresses in 32768..65535. -/
theorem direct_memory_raw_index :
    (∀ (m : Nat → Nat) (i v : Nat), i < 65536 →
      i < MEM_SIZE ∧ memGetE m i = some (m i) ∧
        memSetE m i v = some (fun j => if j = i then v else m j)) ∧
    (∀ addr w : Nat, 32768 ≤ addr → addr < 65536 →
      run_optcode (mkSynacor [16, 32768, 32769]
          [addr, w, 0, 0, 0, 0, 0, 0] [] none) =
        some (none, { mkSynacor [16, 32768, 32769]
            [addr, w, 0, 0, 0, 0, 0, 0] [] none with
          memory := fun j => if j = addr then w
            else (mkSynacor [16, 32768, 32769]
              [addr, w, 0, 0, 0, 0, 0, 0] [] none).memory j,
          program_counter := 3 }) ∧
      (if addr = addr then w
        else (mkSynacor [16, 32768, 32769]
          [addr, w, 0, 0, 0, 0, 0, 0] [] none).memory addr) = w) ∧
    (∀ addr : Nat, 32768 ≤ addr → addr < 65536 →
      run_optcode (mkSynacor [15, 32770, 32768]
          [addr, 0, 9999, 0, 0, 0, 0, 0] [] none) =
        some (none, { mkSynacor [15, 32770, 32768]
            [addr, 0, 9999, 0, 0, 0, 0, 0] [] none with
          registers := [addr, 0, (mkSynacor [15, 32770, 32768]
            [addr, 0, 9999, 0, 0, 0, 0, 0] [] none).memory addr,
            0, 0, 0, 0, 0],
          program_counter := 3 }) ∧
      (mkSynacor [15, 32770, 32768]
        [addr, 0, 9999, 0, 0, 0, 0, 0] [] none).memory addr = 0) := by
  refine ⟨?_, ?_, ?_⟩
  · intro m i v hi
    have hms : i < MEM_SIZE := by
      unfold MEM_SIZE
      omega
    refine ⟨hms, ?_, ?_⟩
    · unfold memGetE
      rw [if_pos hms]
    · unfold memSetE
      rw [if_pos hms]
  · intro addr w h32 h65
    constructor
    · rw [wmem_step (mkSynacor [16, 32768, 32769]
          [addr, w, 0, 0, 0, 0, 0, 0] [] none) addr w
        (by norm_num [mkSynacor])
        (by unfold mkSynacor; norm_num)
        (by unfold mkSynacor read_word_data; norm_num)
        (by unfold mkSynacor read_word_data; norm_num)
        (show addr < MEM_SIZE by unfold MEM_SIZE; omega)]
      simp only [mkSynacor]
    · simp
  · intro addr h32 h65
    constructor
    · rw [rmem_step (mkSynacor [15, 32770, 32768]
          [addr, 0, 9999, 0, 0, 0, 0, 0] [] none) addr
        (by norm_num [mkSynacor])
        (by unfold mkSynacor; norm_num)
        (by unfold mkSynacor read_word_data; norm_num)
        (show addr < MEM_SIZE by unfold MEM_SIZE; omega)
        (by norm_num [mkSynacor])
        (by norm_num [mkSynacor])
        (by norm_num [mkSynacor])]
      simp only [mkSynacor]
      norm_num
    · show List.getD [15, 32770, 32768] addr 0 = 0
      refine List.getD_eq_default _ _ ?_
      simp only [List.length_cons, List.length_nil]
      omega

theorem direct_memory_raw_index_witness :
    ((40000 : Nat) < MEM_SIZE ∧
      memGetE (fun _ => 7) 40000 = some ((fun _ => (7 : Nat)) 40000) ∧
      memSetE (fun _ => 7) 40000 3 =
        some (fun j => if j = 40000 then 3 else (fun _ => (7 : Nat)) j)) ∧
    ((mkSynacor [15, 32770, 32768] [40000, 0, 9999, 0, 0, 0, 0, 0]
        [] none).memory 40000 = 0) :=
  ⟨(direct_memory_raw_index.1 (fun _ => 7) 40000 3 (by decide)),
    (direct_memory_raw_index.2.2 40000 (by decide) (by decide)).2⟩

/-! ### The program loader -/

lemma wordLE_eq {b1 b2 : Nat} (h1 : b1 < 256) (h2 : b2 < 256) :
    wordLE b1 b2 = b1 + 256 * b2 := by
  unfold wordLE
  rw [Nat.mod_eq_of_lt h1, Nat.mod_eq_of_lt h2]
  rw [Nat.shiftLeft_eq, Nat.mul_comm b2 (2 ^ 8),
    ← Nat.mul_add_lt_is_or (show b1 < 2 ^ 8 by norm_num [h1]) b2]
  omega

lemma getD_lt_256 {l : List Nat} (h : ∀ b ∈ l, b < 256) (n : Nat) :
    l.getD n 0 < 256 := by
  rcases Nat.lt_or_ge n l.length with hn | hn
  · rw [List.getD_eq_getElem l 0 hn]
    exact h _ (List.getElem_mem hn)
  · rw [List.getD_eq_default _ _ hn]
    norm_num

/-- What one run of the loader loop computes: one word per byte pair at
consecutive indices starting at `index`, all other memory untouched. -/
theorem load_loop_spec :
    ∀ (bytes : List Nat) (mem : Nat → Nat) (idx : Nat),
      idx + bytes.length / 2 ≤ MEM_SIZE →
      ∃ m, load_loop mem idx bytes = some m ∧
        (∀ k, k < bytes.length / 2 →
          m (idx + k) =
            wordLE (bytes.getD (2 * k) 0) (bytes.getD (2 * k + 1) 0)) ∧
        (∀ j, j < idx ∨ idx + bytes.length / 2 ≤ j → m j = mem j)
  | [], mem, idx, _ => by
    refine ⟨mem, rfl, ?_, fun j _ => rfl⟩
    intro k hk
    exact absurd hk (by norm_num)
  | [b], mem, idx, _ => by
    refine ⟨mem, rfl, ?_, fun j _ => rfl⟩
    intro k hk
    exact absurd hk (by norm_num)
  | b1 :: b2 :: rest, mem, idx, h => by
    have hlen : (b1 :: b2 :: rest).length / 2 = rest.length / 2 + 1 := by
      simp only [List.length_cons]
      omega
    have hidx : idx < MEM_SIZE := by
      rw [hlen] at h
      omega
    obtain ⟨m, h1, h2, h3⟩ := load_loop_spec rest
      (fun j => if j = idx then wordLE b1 b2 else mem j) (idx + 1)
      (by rw [hlen] at h; omega)
    refine ⟨m, ?_, ?_, ?_⟩
    · unfold load_loop
      rw [if_pos hidx]
      exact h1
    · intro k hk
      rw [hlen] at hk
      cases k with
      | zero =>
        have hm := h3 idx (Or.inl (by omega))
        simp only [if_pos rfl] at hm
        simpa using hm
      | succ k0 =>
        have hk0 : k0 < rest.length / 2 := by omega
        have hm := h2 k0 hk0
        have e0 : idx + (k0 + 1) = idx + 1 + k0 := by omega
        have e1 : 2 * (k0 + 1) = 2 * k0 + 1 + 1 := by ring
        rw [e0, hm, e1]
        simp only [List.getD_cons_succ]
    · intro j hj
      rw [hlen] at hj
      have hne : j ≠ idx := by omega
      have hm := h3 j (by omega)
      rw [hm, if_neg hne]

/-- Claim C6 (counterexample to the claim as stated): for a byte
sequence of length `2 * MEM_SIZE + 2` the loader's write index reaches
the size of the physical memory array and the indexing panics, instead
of loading `floor(n / 2)` words. -/
theorem loader_overflow_counterexample :
    read_bytes_into_ram (Synacor.new none)
        (List.replicate (2 * MEM_SIZE + 2) 0) = none ∧
      (List.replicate (2 * MEM_SIZE + 2) 0).length = 2 * MEM_SIZE + 2 := by
  have key : ∀ (k idx : Nat) (mem : Nat → Nat), MEM_SIZE < idx + k + 1 →
      load_loop mem idx (List.replicate (2 * (k + 1)) 0) = none := by
    intro k
    induction k with
    | zero =>
      intro idx mem hidx
      rw [show 2 * (0 + 1) = 2 by ring]
      rw [show List.replicate 2 (0 : Nat) = [0, 0] from rfl]
      unfold load_loop
      rw [if_neg (by omega)]
    | succ k0 ih =>
      intro idx mem hidx
      rw [show 2 * (k0 + 1 + 1) = 2 * (k0 + 1) + 1 + 1 by ring]
      rw [List.replicate_succ, List.replicate_succ]
      unfold load_loop
      by_cases hi : idx < MEM_SIZE
      · rw [if_pos hi]
        exact ih (idx + 1) _ (by omega)
      · rw [if_neg hi]
  constructor
  · unfold read_bytes_into_ram
    rw [show 2 * MEM_SIZE + 2 = 2 * (MEM_SIZE + 1) by ring]
    show (load_loop (fun _ => 0) 0
      (List.replicate (2 * (MEM_SIZE + 1)) 0)).map _ = none
    rw [key MEM_SIZE 0 _ (by omega)]
    rfl
  · simp

/-- Claim C6 (amended): for every byte sequence whose length `n` keeps
all write indices inside the physical memory array (`n ≤ 2 * MEM_SIZE +
1`), the loader writes exactly `floor(n / 2)` words at positions
`0 .. floor(n / 2) - 1`, each formed little-endian (low byte first) from
consecutive byte pairs; a trailing odd byte is ignored and every other
position stays zero.  For longer inputs the write index reaches the end
of the array and the loader panics. -/
theorem loader_words_amended (bytes : List Nat)
    (hlen : bytes.length ≤ 2 * MEM_SIZE + 1)
    (hbytes : ∀ b ∈ bytes, b < 256) :
    ∃ s', read_bytes_into_ram (Synacor.new none) bytes = some s' ∧
      (∀ k, k < bytes.length / 2 →
        s'.memory k = bytes.getD (2 * k) 0 + 256 * bytes.getD (2 * k + 1) 0) ∧
      (∀ j, bytes.length / 2 ≤ j → s'.memory j = 0) := by
  obtain ⟨m, h1, h2, h3⟩ := load_loop_spec bytes (fun _ => 0) 0 (by omega)
  refine ⟨{ Synacor.new none with memory := m }, ?_, ?_, ?_⟩
  · unfold read_bytes_into_ram
    show (load_loop (fun _ => 0) 0 bytes).map _ = _
    rw [h1]
    rfl
  · intro k hk
    have hw := h2 k hk
    rw [Nat.zero_add] at hw
    show m k = _
    rw [hw, wordLE_eq (getD_lt_256 hbytes _) (getD_lt_256 hbytes _)]
  · intro j hj
    show m j = 0
    rw [h3 j (Or.inr (by omega))]

theorem loader_words_amended_witness :
    ∃ s', read_bytes_into_ram (Synacor.new none) [1, 2, 3] = some s' ∧
      (∀ k, k < [1, 2, 3].length / 2 →
        s'.memory k = [1, 2, 3].getD (2 * k) 0 +
          256 * [1, 2, 3].getD (2 * k + 1) 0) ∧
      (∀ j, [1, 2, 3].length / 2 ≤ j → s'.memory j = 0) :=
  loader_words_amended [1, 2, 3] (by norm_num [MEM_SIZE]) (by decide)
